import Mathlib

/-!
Verification of the download-organizer program (`organize.py`) against its
natural-language specification.

The program is shallowly embedded: the filesystem is a finite-support map
from component paths to entries, Python exceptions are `Except`, the
underlying archive codecs and the I/O environment are oracles (a success
flag per extraction attempt, a read-failure flag for hashing), and the
bounded thread pool is folded to a sequential fold (the spec requires no
ordering guarantees and each item owns its state).  Every definition below
is translated from the source file `organize.py`; doc comments cite the
function being embedded.
-/

set_option linter.unusedVariables false

namespace Organizer

/-- A filesystem path, as the list of its components (pathlib `Path` parts,
already `expanduser`-ed). -/
abbrev Path := List String

/-- What a filesystem path can be bound to: a directory or a regular file. -/
inductive Entry where
  | dir : Entry
  | file : Entry
deriving DecidableEq

/-- The filesystem state: each path is bound to at most one entry. -/
abbrev FS := Path → Option Entry

/-- Bind path `p` to entry `e`, replacing any previous binding. -/
def FS.set (fs : FS) (p : Path) (e : Entry) : FS :=
  fun q => if q = p then some e else fs q

/-- Remove the binding of path `p`. -/
def FS.del (fs : FS) (p : Path) : FS :=
  fun q => if q = p then none else fs q

/-- `Path.is_dir()`: the path is bound to a directory. -/
def isDir (fs : FS) (p : Path) : Bool :=
  decide (fs p = some Entry.dir)

/-- Last index at which character `c` occurs in `cs` (Python `str.rfind`). -/
def lastIdxOf (c : Char) (cs : List Char) : Option Nat :=
  match cs with
  | [] => none
  | a :: tl =>
    match lastIdxOf c tl with
    | some i => some (i + 1)
    | none => if a = c then some 0 else none

/-- `os.path.splitext` on POSIX: split off the final extension, where the
extension starts at the last dot of the final component provided some
non-dot character of that component precedes it. -/
def splitextChars (cs : List Char) : List Char × List Char :=
  let fIdx : Nat :=
    match lastIdxOf '/' cs with
    | some i => i + 1
    | none => 0
  match lastIdxOf '.' cs with
  | none => (cs, [])
  | some sIdx =>
    if fIdx < sIdx && ((cs.drop fIdx).take (sIdx - fIdx)).any (fun a => a != '.') then
      (cs.take sIdx, cs.drop sIdx)
    else (cs, [])

/-- Fuelled matcher for the regex fragment `(?:\.[0-9]+)*` applied greedily:
returns the matched run.  Fuel bounds the recursion; `dottedRun` supplies
fuel equal to the input length, which each step (consuming at least two
characters) can never exhaust. -/
def dottedRunF : Nat → List Char → List Char
  | 0, _ => []
  | _ + 1, [] => []
  | fuel + 1, c :: tl =>
    if c = '.' then
      let d := tl.takeWhile Char.isDigit
      if d.isEmpty then [] else '.' :: (d ++ dottedRunF fuel (tl.drop d.length))
    else []

/-- Greedy match of `(?:\.[0-9]+)*` at the head of `cs`. -/
def dottedRun (cs : List Char) : List Char := dottedRunF cs.length cs

/-- Greedy match of the regex group `([0-9]+(?:\.[0-9]+)*)` at the head of
`cs`; empty result means the optional group did not match. -/
def versionRun (cs : List Char) : List Char :=
  let d := cs.takeWhile Char.isDigit
  if d.isEmpty then [] else d ++ dottedRun (cs.drop d.length)

/-- `simplify_name` from `organize.py`: strip the final extension, replace
spaces by underscores, then apply
`re.match(r"([a-zA-Z0-9]+)[-_]?([0-9]+(?:\.[0-9]+)*)?[-_]?.*", base_name)`.
The leading `[a-zA-Z0-9]+` group is the maximal leading alphanumeric run
(greedy, and the optional remainder of the pattern always matches, so no
backtracking occurs); when the pattern fails (first character not
alphanumeric) the whole normalized base name is returned. -/
def simplify_name (file_name : String) : String :=
  let base := (splitextChars file_name.toList).1.map (fun a => if a = ' ' then '_' else a)
  match base with
  | [] => String.mk base
  | a :: _ =>
    if a.isAlphanum then
      let lib := base.takeWhile (fun b => b.isAlphanum)
      let r1 := base.dropWhile (fun b => b.isAlphanum)
      let r2 :=
        match r1 with
        | b :: tl => if b = '-' || b = '_' then tl else r1
        | [] => []
      let ver := versionRun r2
      if ver.isEmpty then String.mk lib else String.mk (lib ++ '-' :: ver)
    else String.mk base

/-- Python `s.split("-")[0]`: the part of `s` before the first dash. -/
def splitHeadDash (s : String) : String :=
  String.mk (s.toList.takeWhile (fun c => c != '-'))

/-- `pathlib.PurePath.suffix`: the final extension of the last component,
present only when the last dot is neither the first nor the last character
of that component. -/
def pathSuffix (name : String) : String :=
  let cs := name.toList
  match lastIdxOf '.' cs with
  | none => ""
  | some i => if 0 < i && i + 1 < cs.length then String.mk (cs.drop i) else ""

/-- `pathlib.PurePath.stem`: the last component without its suffix. -/
def pathStem (name : String) : String :=
  let cs := name.toList
  match lastIdxOf '.' cs with
  | none => name
  | some i => if 0 < i && i + 1 < cs.length then String.mk (cs.take i) else name

/-- ASCII lowercasing, as `str.lower` acts on extension strings. -/
def lowerStr (s : String) : String :=
  String.mk (s.toList.map Char.toLower)

/-- Capabilities of one underlying codec, read off the Python libraries the
handler table binds: whether the opened object has an `extractall` method
(container formats) and whether that `extractall` accepts a `pwd` keyword
argument (`zipfile.ZipFile.extractall` and `rarfile.RarFile.extractall` do;
`tarfile.TarFile.extractall` and `py7zr.SevenZipFile.extractall` do not, so
passing `pwd=` to them raises `TypeError`). -/
structure Handler where
  hasExtractall : Bool
  pwdKw : Bool
deriving DecidableEq

/-- `ARCHIVE_HANDLERS` from `organize.py`: extension → codec capability.
`.gz`, `.bz2`, `.xz` open as single readable streams without `extractall`. -/
def ARCHIVE_HANDLERS : List (String × Handler) :=
  [(".tar", ⟨true, false⟩),
   (".zip", ⟨true, true⟩),
   (".7z", ⟨true, false⟩),
   (".rar", ⟨true, true⟩),
   (".gz", ⟨false, false⟩),
   (".bz2", ⟨false, false⟩),
   (".xz", ⟨false, false⟩)]

/-- Dictionary lookup in `ARCHIVE_HANDLERS`. -/
def lookupHandler (ext : String) : Option Handler :=
  (ARCHIVE_HANDLERS.find? (fun pr => pr.1 == ext)).map Prod.snd

/-- `is_supported_archive` from `organize.py`:
`Path(file_path).suffix.lower() in ARCHIVE_HANDLERS`.  The suffix of a path
is the suffix of its final component, so the entry name suffices. -/
def is_supported_archive (name : String) : Bool :=
  (lookupHandler (lowerStr (pathSuffix name))).isSome

/-- `Path.mkdir(parents=True, exist_ok=True)` applied in order to each
member of a path chain: an existing directory is success (`exist_ok`, and
missing parents are created), while a path bound to a non-directory raises
`FileExistsError`, modelled as the `false` flag with creation stopped. -/
def mkdirList : FS → List Path → FS × Bool
  | fs, [] => (fs, true)
  | fs, p :: rest =>
    match fs p with
    | some Entry.dir => mkdirList fs rest
    | some Entry.file => (fs, false)
    | none => mkdirList (FS.set fs p Entry.dir) rest

/-- The chain of ancestors of `p` ending with `p` itself, shortest first:
the directories `mkdir(parents=True)` must secure. -/
def ancestorChain : Path → List Path
  | [] => []
  | a :: rest => [a] :: (ancestorChain rest).map (fun q => a :: q)

/-- `Path.mkdir(parents=True, exist_ok=True)` on one path. -/
def mkdirP (fs : FS) (p : Path) : FS × Bool :=
  mkdirList fs (ancestorChain p)

/-- `ensure_directories_exist` from `organize.py`: create the group folder,
then the specific folder; an exception from the first call propagates
before the second runs. -/
def ensure_directories_exist (fs : FS) (group_folder specific_folder : Path) : FS × Bool :=
  let r := mkdirP fs group_folder
  if r.2 then mkdirP r.1 specific_folder else r

/-- The body of the `try:` block of `extract_file`, for one attempt.
`codecOk` is the oracle for the underlying codec succeeding (locks,
corruption, wrong password all fold into it).  Opening the archive fails if
the source is not a file; container handlers receive
`extractall(path=extract_to, pwd=...)`, which raises `TypeError` when the
codec lacks the `pwd` keyword (tar family, 7z) — the keyword is passed even
when no password is configured; handlers without `extractall` decompress to
a single file named after the archive stem.  Members written by a
successful container extraction are abstracted as one entry named
`name ++ ".members"`.  The unsupported-extension branch of the source runs
before the `try:` and returns normally. -/
def extractAttempt (codecOk : Bool) (name : String) (src extract_to : Path)
    (password : Option String) (fs : FS) : Except String FS :=
  match lookupHandler (lowerStr (pathSuffix name)) with
  | none => Except.ok fs
  | some h =>
    if fs src = some Entry.file then
      if h.hasExtractall then
        if h.pwdKw then
          if codecOk then Except.ok (FS.set fs (extract_to ++ [name ++ ".members"]) Entry.file)
          else Except.error "codec failure"
        else Except.error "TypeError: unexpected keyword pwd"
      else
        if codecOk then Except.ok (FS.set fs (extract_to ++ [pathStem name]) Entry.file)
        else Except.error "codec failure"
    else Except.error "cannot open archive"

/-- One call of the function the `@retry` decorator wraps: the body catches
every exception internally (`except Exception as e: logging.error(...)`)
and falls through to a normal `return None`, so the decorated function
never raises. -/
def extractBody (codecOk : Nat → Bool) (attempt : Nat) (name : String) (src extract_to : Path)
    (password : Option String) (fs : FS) : Except String FS :=
  match extractAttempt (codecOk attempt) name src extract_to password fs with
  | Except.ok fs1 => Except.ok fs1
  | Except.error _ => Except.ok fs

/-- The `retry(Exception, tries=n, delay=2)` decorator: run the operation,
re-running it on an exception until the attempts are exhausted, then
re-raise the final exception; the second result component counts the
attempts actually made.  The fixed 2-second sleep has no filesystem
effect. -/
def retryRun (body : Nat → FS → Except String FS) : Nat → Nat → FS → Except String FS × Nat
  | 0, k, _ => (Except.error "retry exhausted", k)
  | 1, k, fs => (body k fs, k + 1)
  | n + 2, k, fs =>
    match body k fs with
    | Except.ok fs1 => (Except.ok fs1, k + 1)
    | Except.error _ => retryRun body (n + 1) (k + 1) fs

/-- `extract_file` from `organize.py`: the internally-catching body wrapped
in `@retry(Exception, tries=3, delay=2)`. -/
def extract_file (codecOk : Nat → Bool) (name : String) (src extract_to : Path)
    (password : Option String) (fs : FS) : Except String FS × Nat :=
  retryRun (fun k => extractBody codecOk k name src extract_to password) 3 0 fs

/-- `integrity_check` from `organize.py`: open the file and stream it
through MD5/SHA256/SHA512.  A missing file raises `FileNotFoundError`; the
oracle `hashReadFails` raises an I/O error mid-stream.  The digest values
themselves are abstracted (no claim inspects them). -/
def integrity_check (hashReadFails : Bool) (file_path : Path) (fs : FS) : Except String Unit :=
  match fs file_path with
  | some Entry.file => if hashReadFails then Except.error "read error" else Except.ok ()
  | _ => Except.error "FileNotFoundError"

/-- `shutil.move` of a regular file to a full destination path: the source
binding is removed and the destination bound; a missing source raises. -/
def shutil_move (fs : FS) (src dst : Path) : Except String FS :=
  if fs src = some Entry.file then Except.ok (FS.set (FS.del fs src) dst Entry.file)
  else Except.error "source missing"

/-- One non-directory entry of the base directory (`os.DirEntry`). -/
structure Item where
  name : String
  path : Path
deriving DecidableEq

/-- The per-item report: which branch of `process_file` completed.
`failed` is the outer `except` of `process_file` (logged as
"Failed to process"); `extracted` is the archive branch completing, which —
because `extract_file` swallows codec failures — does not imply any archive
content was written. -/
inductive Outcome where
  | extracted : Outcome
  | moved : Outcome
  | simulatedExtract : Outcome
  | simulatedMove : Outcome
  | failed : Outcome
deriving DecidableEq

/-- The group folder `process_file` computes:
`output_dir / folder_name.split("-")[0]`. -/
def group_folderOf (output_dir : Path) (name : String) : Path :=
  output_dir ++ [splitHeadDash (simplify_name name)]

/-- The specific folder `process_file` computes: `group_folder / folder_name`. -/
def specific_folderOf (output_dir : Path) (name : String) : Path :=
  group_folderOf output_dir name ++ [simplify_name name]

/-- `process_file` from `organize.py`, in its exact order: simplify the
name, compute the two folders, `ensure_directories_exist` (before any
simulate check), then branch on `is_supported_archive`; archives are
extracted (or the extraction simulated) and optionally hashed, other files
are moved (or the move simulated).  Any exception is caught at the item
boundary and becomes the `failed` outcome. -/
def process_file (codecOk : Nat → Bool) (hashReadFails : Bool) (item : Item)
    (output_dir : Path) (simulate integrity : Bool) (password : Option String)
    (fs : FS) : Outcome × FS :=
  let specific_folder := specific_folderOf output_dir item.name
  let er := ensure_directories_exist fs (group_folderOf output_dir item.name) specific_folder
  if er.2 then
    if is_supported_archive item.name then
      if simulate then (Outcome.simulatedExtract, er.1)
      else
        match (extract_file codecOk item.name item.path specific_folder password er.1).1 with
        | Except.error _ => (Outcome.failed, er.1)
        | Except.ok fs2 =>
          if integrity then
            match integrity_check hashReadFails item.path fs2 with
            | Except.error _ => (Outcome.failed, fs2)
            | Except.ok _ => (Outcome.extracted, fs2)
          else (Outcome.extracted, fs2)
    else
      if simulate then (Outcome.simulatedMove, er.1)
      else
        match shutil_move er.1 item.path (specific_folder ++ [item.name]) with
        | Except.ok fs2 => (Outcome.moved, fs2)
        | Except.error _ => (Outcome.failed, er.1)
  else (Outcome.failed, er.1)

/-- `resolve_base_dir` from `organize.py`: take the parent of the
configured path when it is a directory (else the home directory), prefer a
`Downloads` then a `downloads` subdirectory of it, and otherwise fall back
to the configured path. -/
def resolve_base_dir (fs : FS) (home : Path) (base_dir : Path) : Path :=
  let parent_dir := if isDir fs base_dir.dropLast then base_dir.dropLast else home
  if isDir fs (parent_dir ++ ["Downloads"]) then parent_dir ++ ["Downloads"]
  else if isDir fs (parent_dir ++ ["downloads"]) then parent_dir ++ ["downloads"]
  else base_dir

/-- The validated configuration `organize_downloads` consumes (password
prompting already resolved; `max_threads` is `config.get("max_threads", 4)`). -/
structure RunConfig where
  base_dir : Path
  output_dir : Path
  simulate : Bool
  integrity : Bool
  password : Option String
  file_filter : String → Bool
  max_threads : Nat

/-- One entry returned by `os.scandir(base_dir)`. -/
structure ScanEntry where
  name : String
  entryIsDir : Bool
deriving DecidableEq

/-- The filter `organize_downloads` applies to the scan:
`not item.is_dir() and file_filter.search(item.name)`. -/
def filtered_entries (listing : List ScanEntry) (config : RunConfig) : List ScanEntry :=
  listing.filter (fun e => !e.entryIsDir && config.file_filter e.name)

/-- `executor.map(lambda x: process_file(...), items)` collected in order;
the bounded pool adds no ordering or atomicity the claims rely on, so it is
folded to a sequential traversal threading the filesystem. -/
def procAll (codecOk : String → Nat → Bool) (hashReadFails : String → Bool)
    (output_dir : Path) (simulate integrity : Bool) (password : Option String) :
    List Item → FS → List Outcome × FS
  | [], fs => ([], fs)
  | it :: rest, fs =>
    let r := process_file (codecOk it.name) (hashReadFails it.name) it output_dir
      simulate integrity password fs
    let rs := procAll codecOk hashReadFails output_dir simulate integrity password rest r.2
    (r.1 :: rs.1, rs.2)

/-- `organize_downloads` from `organize.py`: resolve the base directory,
abort normally (zero items) when it is not a readable directory, scan and
filter the entries, compute
`max_threads = min(len(items), multiprocessing.cpu_count(), config.max_threads)`
and hand the items to `ThreadPoolExecutor(max_threads)` — whose constructor
raises `ValueError` when `max_threads` is zero, in particular whenever the
item list is empty.  `baseReadable` is the `os.access(base_dir, os.R_OK)`
oracle and `listing` the `os.scandir` result. -/
def organize_downloads (codecOk : String → Nat → Bool) (hashReadFails : String → Bool)
    (home : Path) (listing : List ScanEntry) (baseReadable : Bool) (cpuCount : Nat)
    (config : RunConfig) (fs : FS) : Except String (List Outcome × FS) :=
  let base_dir := resolve_base_dir fs home config.base_dir
  if isDir fs base_dir && baseReadable then
    let items := (filtered_entries listing config).map
      (fun e => Item.mk e.name (base_dir ++ [e.name]))
    if Nat.min (Nat.min items.length cpuCount) config.max_threads = 0 then
      Except.error "ValueError: max_workers must be greater than 0"
    else
      Except.ok (procAll codecOk hashReadFails config.output_dir config.simulate
        config.integrity config.password items fs)
  else Except.ok ([], fs)

/-! ### Concrete states used by witnesses and counterexamples -/

/-- A small concrete filesystem: a base directory holding three files, an
existing output root, and a directory `p` holding both a `Downloads`
subdirectory and a distinct configured directory `cfg`. -/
def fs0demo : FS := fun p =>
  if p = ["base"] then some Entry.dir
  else if p = ["base", "a.zip"] then some Entry.file
  else if p = ["base", "x.tar"] then some Entry.file
  else if p = ["base", "foo.txt"] then some Entry.file
  else if p = ["out"] then some Entry.dir
  else if p = ["p"] then some Entry.dir
  else if p = ["p", "Downloads"] then some Entry.dir
  else if p = ["p", "cfg"] then some Entry.dir
  else none

/-- The plain file `base/foo.txt` as a scanned item. -/
def itemFoo : Item := ⟨"foo.txt", ["base", "foo.txt"]⟩

/-- The archive `base/a.zip` as a scanned item. -/
def itemZip : Item := ⟨"a.zip", ["base", "a.zip"]⟩

/-- A run configuration pointing at `base` and `out`, execute mode,
match-everything filter, default `max_threads = 4`. -/
def cfg0demo : RunConfig := ⟨["base"], ["out"], false, false, none, fun _ => true, 4⟩

/-- A second concrete filesystem holding a single-stream archive
`base/notes.gz`, used to exercise the decompress-to-stem branch. -/
def fsGz : FS := fun p =>
  if p = ["base"] then some Entry.dir
  else if p = ["base", "notes.gz"] then some Entry.file
  else if p = ["out"] then some Entry.dir
  else none

/-- The single-stream archive `base/notes.gz` as a scanned item. -/
def itemGz : Item := ⟨"notes.gz", ["base", "notes.gz"]⟩

/-! ### Helper lemmas -/

theorem mkdirList_keeps {q : Path} {e : Entry} :
    ∀ (ps : List Path) (fs : FS), fs q = some e → (mkdirList fs ps).1 q = some e := by
  intro ps
  induction ps with
  | nil => intro fs h; simpa [mkdirList] using h
  | cons p rest ih =>
    intro fs h
    by_cases hqp : q = p
    · subst hqp
      unfold mkdirList
      rw [h]
      cases e with
      | dir => exact ih fs h
      | file => simpa using h
    · unfold mkdirList
      cases hp : fs p with
      | none =>
        exact ih (FS.set fs p Entry.dir) (by simp [FS.set, hqp, h])
      | some ep =>
        cases ep with
        | dir => exact ih fs h
        | file => simpa using h

theorem mkdirList_no_file {q : Path} :
    ∀ (ps : List Path) (fs : FS), fs q ≠ some Entry.file →
      (mkdirList fs ps).1 q ≠ some Entry.file := by
  intro ps
  induction ps with
  | nil => intro fs h; simpa [mkdirList] using h
  | cons p rest ih =>
    intro fs h
    unfold mkdirList
    cases hp : fs p with
    | none =>
      refine ih (FS.set fs p Entry.dir) ?_
      by_cases hqp : q = p <;> simp [FS.set, hqp, h]
    | some ep =>
      cases ep with
      | dir => exact ih fs h
      | file => simpa using h

theorem mkdirList_ok :
    ∀ (ps : List Path) (fs : FS), (∀ p ∈ ps, fs p ≠ some Entry.file) →
      (mkdirList fs ps).2 = true := by
  intro ps
  induction ps with
  | nil => intro fs _; simp [mkdirList]
  | cons p rest ih =>
    intro fs h
    unfold mkdirList
    cases hp : fs p with
    | none =>
      refine ih (FS.set fs p Entry.dir) ?_
      intro r hr
      by_cases hrp : r = p <;> simp [FS.set, hrp, h r (List.mem_cons_of_mem p hr)]
    | some ep =>
      cases ep with
      | dir => exact ih fs (fun r hr => h r (List.mem_cons_of_mem p hr))
      | file => exact absurd hp (h p (List.mem_cons_self p rest))

theorem mkdirList_mem_dir :
    ∀ (ps : List Path) (fs : FS), (∀ p ∈ ps, fs p ≠ some Entry.file) →
      ∀ p ∈ ps, (mkdirList fs ps).1 p = some Entry.dir := by
  intro ps
  induction ps with
  | nil => intro fs _ p hp; simp at hp
  | cons a rest ih =>
    intro fs h p hp
    unfold mkdirList
    cases ha : fs a with
    | none =>
      have hset : ∀ r ∈ rest, FS.set fs a Entry.dir r ≠ some Entry.file := by
        intro r hr
        by_cases hra : r = a <;> simp [FS.set, hra, h r (List.mem_cons_of_mem a hr)]
      rcases List.mem_cons.mp hp with hpa | hpr
      · rw [hpa]
        exact mkdirList_keeps rest (FS.set fs a Entry.dir) (by simp [FS.set])
      · exact ih (FS.set fs a Entry.dir) hset p hpr
    | some ea =>
      cases ea with
      | dir =>
        rcases List.mem_cons.mp hp with hpa | hpr
        · rw [hpa]; exact mkdirList_keeps rest fs ha
        · exact ih fs (fun r hr => h r (List.mem_cons_of_mem a hr)) p hpr
      | file => exact absurd ha (h a (List.mem_cons_self a rest))

theorem mkdirList_id :
    ∀ (ps : List Path) (fs : FS), (∀ p ∈ ps, fs p = some Entry.dir) →
      mkdirList fs ps = (fs, true) := by
  intro ps
  induction ps with
  | nil => intro fs _; simp [mkdirList]
  | cons p rest ih =>
    intro fs h
    unfold mkdirList
    rw [h p (List.mem_cons_self p rest)]
    exact ih fs (fun r hr => h r (List.mem_cons_of_mem p hr))

theorem ancestorChain_append_singleton :
    ∀ (p : Path) (x : String), ancestorChain (p ++ [x]) = ancestorChain p ++ [p ++ [x]] := by
  intro p x
  induction p with
  | nil => simp [ancestorChain]
  | cons a rest ih => simp [ancestorChain, ih]

theorem ensure_id {fs : FS} {g s : Path}
    (hg : ∀ q ∈ ancestorChain g, fs q = some Entry.dir)
    (hs : ∀ q ∈ ancestorChain s, fs q = some Entry.dir) :
    ensure_directories_exist fs g s = (fs, true) := by
  simp [ensure_directories_exist, mkdirP, mkdirList_id _ _ hg, mkdirList_id _ _ hs]

theorem ensure_keeps {fs : FS} {g s q : Path} {e : Entry} (h : fs q = some e) :
    (ensure_directories_exist fs g s).1 q = some e := by
  unfold ensure_directories_exist mkdirP
  by_cases h2 : (mkdirList fs (ancestorChain g)).2
  · simpa [h2] using
      mkdirList_keeps (ancestorChain s) (mkdirList fs (ancestorChain g)).1
        (mkdirList_keeps (ancestorChain g) fs h)
  · simpa [h2] using mkdirList_keeps (ancestorChain g) fs h

/-- Under no non-directory collision along the chain of the specific
folder (which extends the chain of the group folder),
`ensure_directories_exist` succeeds, makes both folders directories, and
running it again changes nothing. -/
theorem ensure_spec {fs : FS} {g : Path} {x : String}
    (h : ∀ q ∈ ancestorChain (g ++ [x]), fs q ≠ some Entry.file) :
    (ensure_directories_exist fs g (g ++ [x])).2 = true ∧
      (∀ q ∈ ancestorChain (g ++ [x]),
        (ensure_directories_exist fs g (g ++ [x])).1 q = some Entry.dir) ∧
      ensure_directories_exist (ensure_directories_exist fs g (g ++ [x])).1 g (g ++ [x])
        = ((ensure_directories_exist fs g (g ++ [x])).1, true) := by
  have hchain : ancestorChain (g ++ [x]) = ancestorChain g ++ [g ++ [x]] :=
    ancestorChain_append_singleton g x
  have hg : ∀ q ∈ ancestorChain g, fs q ≠ some Entry.file := by
    intro q hq
    exact h q (by rw [hchain]; exact List.mem_append_left _ hq)
  have hok1 : (mkdirList fs (ancestorChain g)).2 = true := mkdirList_ok _ fs hg
  have hs1 : ∀ q ∈ ancestorChain (g ++ [x]),
      (mkdirList fs (ancestorChain g)).1 q ≠ some Entry.file := by
    intro q hq
    exact mkdirList_no_file (ancestorChain g) fs (h q hq)
  have hok2 : (mkdirList (mkdirList fs (ancestorChain g)).1 (ancestorChain (g ++ [x]))).2
      = true := mkdirList_ok _ _ hs1
  have hdirs : ∀ q ∈ ancestorChain (g ++ [x]),
      (mkdirList (mkdirList fs (ancestorChain g)).1 (ancestorChain (g ++ [x]))).1 q
        = some Entry.dir := mkdirList_mem_dir _ _ hs1
  have hfirst : ensure_directories_exist fs g (g ++ [x])
      = mkdirList (mkdirList fs (ancestorChain g)).1 (ancestorChain (g ++ [x])) := by
    simp [ensure_directories_exist, mkdirP, hok1]
  refine ⟨by rw [hfirst]; exact hok2, by rw [hfirst]; exact hdirs, ?_⟩
  have hgd : ∀ q ∈ ancestorChain g,
      (ensure_directories_exist fs g (g ++ [x])).1 q = some Entry.dir := by
    intro q hq
    rw [hfirst]
    exact hdirs q (by rw [hchain]; exact List.mem_append_left _ hq)
  have hsd : ∀ q ∈ ancestorChain (g ++ [x]),
      (ensure_directories_exist fs g (g ++ [x])).1 q = some Entry.dir := by
    intro q hq
    rw [hfirst]; exact hdirs q hq
  exact ensure_id hgd hsd

/-- The decorated `extract_file` always returns normally after exactly one
attempt: the body swallows every exception, so the retry loop never sees a
failure (even a body that failed otherwise is reported as success). -/
theorem extract_file_spec (codecOk : Nat → Bool) (name : String) (src extract_to : Path)
    (password : Option String) (fs : FS) :
    extract_file codecOk name src extract_to password fs =
      (Except.ok (match extractAttempt (codecOk 0) name src extract_to password fs with
        | Except.ok fs1 => fs1
        | Except.error _ => fs), 1) := by
  cases h : extractAttempt (codecOk 0) name src extract_to password fs with
  | ok fs1 => simp [extract_file, retryRun, extractBody, h]
  | error e => simp [extract_file, retryRun, extractBody, h]

/-- The filesystem `extract_file` returns is either unchanged or has one
new entry in the destination folder (the abstracted member set, or the
decompressed stem file). -/
theorem extract_result_cases (codecOk : Nat → Bool) (name : String) (src extract_to : Path)
    (password : Option String) (fs : FS) :
    ∃ fs1, extract_file codecOk name src extract_to password fs = (Except.ok fs1, 1) ∧
      (fs1 = fs ∨ fs1 = FS.set fs (extract_to ++ [name ++ ".members"]) Entry.file ∨
        fs1 = FS.set fs (extract_to ++ [pathStem name]) Entry.file) := by
  rw [extract_file_spec]
  refine ⟨_, rfl, ?_⟩
  unfold extractAttempt
  cases lookupHandler (lowerStr (pathSuffix name)) with
  | none => simp
  | some h =>
    by_cases hsrc : fs src = some Entry.file
    · cases hx : h.hasExtractall with
      | true =>
        cases hpw : h.pwdKw with
        | true =>
          cases hc : codecOk 0 with
          | true => simp [hsrc, hx, hpw, hc]
          | false => simp [hsrc, hx, hpw, hc]
        | false => simp [hsrc, hx, hpw]
      | false =>
        cases hc : codecOk 0 with
        | true => simp [hsrc, hx, hc]
        | false => simp [hsrc, hx, hc]
    · simp [hsrc]

theorem integrity_true_never_ok (file_path : Path) (fs : FS) (u : Unit) :
    integrity_check true file_path fs ≠ Except.ok u := by
  unfold integrity_check
  cases h : fs file_path with
  | none => simp
  | some e => cases e <;> simp

theorem procAll_length (codecOk : String → Nat → Bool) (hashReadFails : String → Bool)
    (output_dir : Path) (simulate integrity : Bool) (password : Option String) :
    ∀ (items : List Item) (fs : FS),
      ((procAll codecOk hashReadFails output_dir simulate integrity password items fs).1).length
        = items.length := by
  intro items
  induction items with
  | nil => intro fs; simp [procAll]
  | cons it rest ih => intro fs; simp [procAll, ih]

/-! ### Claims -/

/-- C1 (code bug): in simulate mode `process_file` still mutates the
filesystem.  `ensure_directories_exist` runs before the simulate check, so
processing `base/foo.txt` with `simulate = true` creates the group and
specific directories that did not exist before — while duly reporting the
simulated-move action.  The claim (and the docstring "simulates actions
without making changes") says simulate mode performs no mutation at all. -/
theorem C1_simulate_creates_directories :
    (process_file (fun _ => true) false itemFoo ["out"] true false none fs0demo).1
        = Outcome.simulatedMove ∧
      (process_file (fun _ => true) false itemFoo ["out"] true false none fs0demo).2
        ["out", "foo"] = some Entry.dir ∧
      (process_file (fun _ => true) false itemFoo ["out"] true false none fs0demo).2
        ["out", "foo", "foo"] = some Entry.dir ∧
      fs0demo ["out", "foo"] = none ∧ fs0demo ["out", "foo", "foo"] = none := by
  decide

/-- C2 (counterexample to the claim as stated): processing the archive
`base/a.zip` in execute mode with an always-succeeding codec yields the
successful archive outcome and writes the extracted members — yet the
source archive still exists afterwards, where the claim requires it to
have been removed. -/
theorem C2_deleted_on_success_counterexample :
    (process_file (fun _ => true) false itemZip ["out"] false false none fs0demo).1
        = Outcome.extracted ∧
      (process_file (fun _ => true) false itemZip ["out"] false false none fs0demo).2
        ["out", "a", "a", "a.zip.members"] = some Entry.file ∧
      (process_file (fun _ => true) false itemZip ["out"] false false none fs0demo).2
        ["base", "a.zip"] = some Entry.file := by
  decide

/-- C2 (amended): in execute mode `process_file` never removes the source
archive.  Whether extraction succeeds or fails, the source file is still
present afterwards: the archive branch only creates directories and writes
extraction output (the two side conditions exclude the degenerate overlap
of the source path with the extraction output paths). -/
theorem C2_archive_never_deleted
    (codecOk : Nat → Bool) (hashReadFails : Bool) (item : Item) (output_dir : Path)
    (integrity : Bool) (password : Option String) (fs : FS)
    (harch : is_supported_archive item.name = true)
    (hsrc : fs item.path = some Entry.file)
    (hne1 : item.path ≠ specific_folderOf output_dir item.name ++ [item.name ++ ".members"])
    (hne2 : item.path ≠ specific_folderOf output_dir item.name ++ [pathStem item.name]) :
    (process_file codecOk hashReadFails item output_dir false integrity password fs).2
      item.path = some Entry.file := by
  have hkeep : (ensure_directories_exist fs (group_folderOf output_dir item.name)
      (specific_folderOf output_dir item.name)).1 item.path = some Entry.file :=
    ensure_keeps hsrc
  simp only [process_file]
  by_cases h2 : (ensure_directories_exist fs (group_folderOf output_dir item.name)
      (specific_folderOf output_dir item.name)).2
  · obtain ⟨fs1, hxf, hc⟩ := extract_result_cases codecOk item.name item.path
      (specific_folderOf output_dir item.name) password
      (ensure_directories_exist fs (group_folderOf output_dir item.name)
        (specific_folderOf output_dir item.name)).1
    have hfs1 : fs1 item.path = some Entry.file := by
      rcases hc with rfl | rfl | rfl
      · exact hkeep
      · simpa [FS.set, hne1] using hkeep
      · simpa [FS.set, hne2] using hkeep
    simp only [h2, harch, if_true, Bool.false_eq_true, if_false, hxf]
    cases integrity with
    | false => simpa using hfs1
    | true =>
      cases hic : integrity_check hashReadFails item.path fs1 with
      | ok u => simpa [hic] using hfs1
      | error e => simpa [hic] using hfs1
  · simp only [h2, Bool.false_eq_true, if_false]
    exact hkeep

/-- C2 witness: the amended theorem applied to the concrete archive
`base/a.zip` in the demo filesystem. -/
theorem C2_archive_never_deleted_witness :
    (is_supported_archive "a.zip" = true ∧ fs0demo ["base", "a.zip"] = some Entry.file) ∧
      (process_file (fun _ => true) false itemZip ["out"] false false none fs0demo).2
        ["base", "a.zip"] = some Entry.file :=
  ⟨⟨by decide, by decide⟩,
    C2_archive_never_deleted (fun _ => true) false itemZip ["out"] false none fs0demo
      (by decide) (by decide) (by decide) (by decide)⟩

/-- C3 (code bug): retry never happens and no failure is surfaced.  With a
codec that raises on every attempt, the raw `try:` body of `extract_file`
fails — but the decorated function makes exactly one attempt and returns
normally (the internal `except Exception` swallows the error before the
`@retry(Exception, tries=3, delay=2)` decorator can see it), and the caller
reports the successful archive outcome instead of a `Failed` one. -/
theorem C3_retry_never_fires :
    extract_file (fun _ => false) "a.zip" ["base", "a.zip"] ["out", "a", "a"] none fs0demo
        = (Except.ok fs0demo, 1) ∧
      extractAttempt false "a.zip" ["base", "a.zip"] ["out", "a", "a"] none fs0demo
        = Except.error "codec failure" ∧
      (process_file (fun _ => false) false itemZip ["out"] false false none fs0demo).1
        = Outcome.extracted :=
  ⟨rfl, rfl, by decide⟩

/-- C4 (counterexample to the claim as stated): with the base directory
present and readable but containing no items, `organize_downloads` computes
`max_threads = min(0, cpu, 4) = 0` and `ThreadPoolExecutor(0)` raises
`ValueError` — the run does not complete normally on the empty item set. -/
theorem C4_empty_scan_counterexample :
    isDir fs0demo (resolve_base_dir fs0demo ["home"] cfg0demo.base_dir) = true ∧
      organize_downloads (fun _ _ => true) (fun _ => false) ["home"] [] true 4 cfg0demo fs0demo
        = Except.error "ValueError: max_workers must be greater than 0" :=
  ⟨by decide, rfl⟩

/-- C4 (amended): when the resolved base directory is a readable directory
and the worker count `min(min(item count, cpu count), max_threads)` is
positive, `organize_downloads` returns normally with exactly one outcome
per enumerated (filtered, non-directory) item; when the base directory is
missing or unreadable it returns normally with zero items processed and
the filesystem untouched.  With zero enumerated items the positivity
hypothesis fails and the thread-pool constructor raises instead. -/
theorem C4_run_outcome_per_item
    (codecOk : String → Nat → Bool) (hashReadFails : String → Bool) (home : Path)
    (listing : List ScanEntry) (baseReadable : Bool) (cpuCount : Nat)
    (config : RunConfig) (fs : FS) :
    ((isDir fs (resolve_base_dir fs home config.base_dir) && baseReadable) = true →
      0 < Nat.min (Nat.min (filtered_entries listing config).length cpuCount)
          config.max_threads →
      ∃ r, organize_downloads codecOk hashReadFails home listing baseReadable
          cpuCount config fs = Except.ok r ∧
        r.1.length = (filtered_entries listing config).length) ∧
    ((isDir fs (resolve_base_dir fs home config.base_dir) && baseReadable) = false →
      organize_downloads codecOk hashReadFails home listing baseReadable cpuCount config fs
        = Except.ok ([], fs)) := by
  constructor
  · intro hok hpos
    have hne : ¬ (Nat.min (Nat.min ((filtered_entries listing config).map
        (fun e => Item.mk e.name (resolve_base_dir fs home config.base_dir ++ [e.name]))).length
        cpuCount) config.max_threads = 0) := by
      simpa [List.length_map] using Nat.pos_iff_ne_zero.mp hpos
    refine ⟨procAll codecOk hashReadFails config.output_dir config.simulate config.integrity
        config.password ((filtered_entries listing config).map
          (fun e => Item.mk e.name (resolve_base_dir fs home config.base_dir ++ [e.name]))) fs,
      ?_, ?_⟩
    · simp only [organize_downloads, hok, if_true, hne, if_false]
    · simp [procAll_length, List.length_map]
  · intro hko
    simp only [organize_downloads, hko, Bool.false_eq_true, if_false]

/-- C4 witness: the amended theorem applied to a one-item listing over the
demo filesystem. -/
theorem C4_run_outcome_per_item_witness :
    ((isDir fs0demo (resolve_base_dir fs0demo ["home"] cfg0demo.base_dir) && true) = true ∧
      0 < Nat.min (Nat.min (filtered_entries [⟨"a.zip", false⟩] cfg0demo).length 4)
          cfg0demo.max_threads) ∧
      ∃ r, organize_downloads (fun _ _ => true) (fun _ => false) ["home"]
          [⟨"a.zip", false⟩] true 4 cfg0demo fs0demo = Except.ok r ∧
        r.1.length = (filtered_entries [⟨"a.zip", false⟩] cfg0demo).length :=
  ⟨⟨by decide, by decide⟩,
    (C4_run_outcome_per_item (fun _ _ => true) (fun _ => false) ["home"]
      [⟨"a.zip", false⟩] true 4 cfg0demo fs0demo).1 (by decide) (by decide)⟩

/-- C5 (counterexample to the claim as stated): for `base/a.zip` with
integrity enabled, the extraction succeeds (its output is present in the
final state) but the hashing read error escapes to the item-boundary
`except`, so the outcome is `failed` — not the successful outcome the
claim requires. -/
theorem C5_hash_error_counterexample :
    (process_file (fun _ => true) true itemZip ["out"] false true none fs0demo).1
        = Outcome.failed ∧
      (process_file (fun _ => true) true itemZip ["out"] false true none fs0demo).2
        ["out", "a", "a", "a.zip.members"] = some Entry.file := by
  decide

/-- C5 (amended): a hashing failure after a successful extraction is not
downgraded: `integrity_check` raises inside the `try:` of `process_file`,
the item-boundary handler catches it, and the item is reported `failed`
even though the extraction's filesystem effects persist.  The hypotheses
characterize every extraction the model can complete successfully: the
extension is bound to some handler that is either a single-stream
decompressor or a container whose `extractall` accepts the always-passed
`pwd` keyword, the source file is present, and the codec succeeds on the
one attempt made; the written output is the member set or the stem file
accordingly. -/
theorem C5_hash_error_fails_item
    (codecOk : Nat → Bool) (item : Item) (output_dir : Path)
    (password : Option String) (fs : FS) (h : Handler)
    (hh : lookupHandler (lowerStr (pathSuffix item.name)) = some h)
    (hcap : h.hasExtractall = false ∨ h.pwdKw = true)
    (hc : codecOk 0 = true)
    (hsrc : fs item.path = some Entry.file)
    (hchain : ∀ q ∈ ancestorChain (specific_folderOf output_dir item.name),
      fs q ≠ some Entry.file) :
    (process_file codecOk true item output_dir false true password fs).1 = Outcome.failed ∧
      (process_file codecOk true item output_dir false true password fs).2
        (specific_folderOf output_dir item.name ++
          [if h.hasExtractall then item.name ++ ".members" else pathStem item.name])
        = some Entry.file := by
  have harch : is_supported_archive item.name = true := by
    simp [is_supported_archive, hh]
  have hspec : ∀ q ∈ ancestorChain (group_folderOf output_dir item.name
      ++ [simplify_name item.name]), fs q ≠ some Entry.file := by
    simpa [specific_folderOf] using hchain
  obtain ⟨hok, _hdirs, _hid⟩ :=
    @ensure_spec fs (group_folderOf output_dir item.name) (simplify_name item.name) hspec
  have hok2 : (ensure_directories_exist fs (group_folderOf output_dir item.name)
      (specific_folderOf output_dir item.name)).2 = true := hok
  have hkeep : (ensure_directories_exist fs (group_folderOf output_dir item.name)
      (specific_folderOf output_dir item.name)).1 item.path = some Entry.file :=
    ensure_keeps hsrc
  have hatt : extractAttempt (codecOk 0) item.name item.path
      (specific_folderOf output_dir item.name) password
      (ensure_directories_exist fs (group_folderOf output_dir item.name)
        (specific_folderOf output_dir item.name)).1
      = Except.ok (FS.set (ensure_directories_exist fs (group_folderOf output_dir item.name)
          (specific_folderOf output_dir item.name)).1
          (specific_folderOf output_dir item.name ++
            [if h.hasExtractall then item.name ++ ".members" else pathStem item.name])
          Entry.file) := by
    cases hx : h.hasExtractall with
    | true =>
      have hpw : h.pwdKw = true := by
        rcases hcap with hcap | hcap
        · rw [hx] at hcap; exact absurd hcap (by simp)
        · exact hcap
      simp [extractAttempt, hh, hkeep, hc, hx, hpw]
    | false =>
      simp [extractAttempt, hh, hkeep, hc, hx]
  have hxf := extract_file_spec codecOk item.name item.path
    (specific_folderOf output_dir item.name) password
    (ensure_directories_exist fs (group_folderOf output_dir item.name)
      (specific_folderOf output_dir item.name)).1
  rw [hatt] at hxf
  have hic : ∀ fs2 : FS, integrity_check true item.path fs2 ≠ Except.ok () := by
    intro fs2
    exact integrity_true_never_ok item.path fs2 ()
  simp only [process_file, hok2, harch, if_true, Bool.false_eq_true, if_false, hxf]
  cases hi : integrity_check true item.path (FS.set
      (ensure_directories_exist fs (group_folderOf output_dir item.name)
        (specific_folderOf output_dir item.name)).1
      (specific_folderOf output_dir item.name ++
        [if h.hasExtractall then item.name ++ ".members" else pathStem item.name])
      Entry.file) with
  | ok u => exact absurd hi (hic _)
  | error e => simp [FS.set]

/-- C5 witness: the amended theorem applied to the single-stream archive
`base/notes.gz` with a read error injected during hashing. -/
theorem C5_hash_error_fails_item_witness :
    (lookupHandler (lowerStr (pathSuffix "notes.gz")) = some ⟨false, false⟩ ∧
      fsGz ["base", "notes.gz"] = some Entry.file) ∧
      (process_file (fun _ => true) true itemGz ["out"] false true none fsGz).1
        = Outcome.failed :=
  ⟨⟨by decide, by decide⟩,
    (C5_hash_error_fails_item (fun _ => true) itemGz ["out"] none fsGz ⟨false, false⟩
      (by decide) (by decide) (by decide) (by decide) (by decide)).1⟩

/-- C6 (code bug): the password is not usable with the tar family at all.
`extract_file` passes `pwd=` to every `extractall`, but
`tarfile.TarFile.extractall` has no such keyword, so extracting a healthy
`x.tar` with a configured password raises `TypeError` — the attempt fails
(and is then swallowed: the filesystem is unchanged and no member was
extracted) instead of succeeding with the password ignored. -/
theorem C6_tar_password_failure :
    extract_file (fun _ => true) "x.tar" ["base", "x.tar"] ["out", "x", "x"] (some "pw") fs0demo
        = (Except.ok fs0demo, 1) ∧
      extractAttempt true "x.tar" ["base", "x.tar"] ["out", "x", "x"] (some "pw") fs0demo
        = Except.error "TypeError: unexpected keyword pwd" :=
  ⟨rfl, rfl⟩

/-- C7 (counterexample to the claim as stated): the leading-alphanumeric
group of the regex stops at the underscore that replaced the space, so
`simplify("my file v2.zip")` groups under library `"my"`, not
`"my_file"`. -/
theorem C7_my_file_counterexample :
    simplify_name "my file v2.zip" = "my" ∧
      splitHeadDash (simplify_name "my file v2.zip") ≠ "my_file" := by
  decide

/-- C7 (amended): the pinned grouping keys of the name simplifier are
`SDL2-2.30.1` (library `SDL2`, version `2.30.1`) for
`"SDL2-2.30.1.tar.gz"`, `readme` (empty version) for `"readme.txt"`, and
`my` (empty version) for `"my file v2.zip"`. -/
theorem C7_pinned_grouping_keys :
    simplify_name "SDL2-2.30.1.tar.gz" = "SDL2-2.30.1" ∧
      splitHeadDash (simplify_name "SDL2-2.30.1.tar.gz") = "SDL2" ∧
      simplify_name "readme.txt" = "readme" ∧
      splitHeadDash (simplify_name "readme.txt") = "readme" ∧
      simplify_name "my file v2.zip" = "my" := by
  decide

/-- C8: `ensure_directories_exist` is idempotent on a placement target
(group directory and its specific child): absent a collision with a
non-directory along the chain, the first call succeeds and binds both
paths to exactly one directory entry each, and a second call succeeds
while changing nothing — in particular pre-existing directories (created
earlier or by a concurrent item resolving to the same group) are treated
as success, never as an error. -/
theorem C8_ensure_idempotent (fs : FS) (output_root : Path) (lib folder : String)
    (h : ∀ q ∈ ancestorChain ((output_root ++ [lib]) ++ [folder]),
      fs q ≠ some Entry.file) :
    (ensure_directories_exist fs (output_root ++ [lib])
        ((output_root ++ [lib]) ++ [folder])).2 = true ∧
      (ensure_directories_exist fs (output_root ++ [lib])
        ((output_root ++ [lib]) ++ [folder])).1 (output_root ++ [lib]) = some Entry.dir ∧
      (ensure_directories_exist fs (output_root ++ [lib])
        ((output_root ++ [lib]) ++ [folder])).1 ((output_root ++ [lib]) ++ [folder])
        = some Entry.dir ∧
      ensure_directories_exist
          (ensure_directories_exist fs (output_root ++ [lib])
            ((output_root ++ [lib]) ++ [folder])).1
          (output_root ++ [lib]) ((output_root ++ [lib]) ++ [folder])
        = ((ensure_directories_exist fs (output_root ++ [lib])
            ((output_root ++ [lib]) ++ [folder])).1, true) := by
  obtain ⟨h1, h2, h3⟩ := @ensure_spec fs (output_root ++ [lib]) folder h
  have hgmem : (output_root ++ [lib]) ∈ ancestorChain ((output_root ++ [lib]) ++ [folder]) := by
    rw [ancestorChain_append_singleton]
    apply List.mem_append_left
    rw [ancestorChain_append_singleton]
    exact List.mem_append_right _ (List.mem_singleton_self _)
  have hsmem : ((output_root ++ [lib]) ++ [folder])
      ∈ ancestorChain ((output_root ++ [lib]) ++ [folder]) := by
    rw [ancestorChain_append_singleton]
    exact List.mem_append_right _ (List.mem_singleton_self _)
  exact ⟨h1, h2 _ hgmem, h2 _ hsmem, h3⟩

/-- C8 witness: the theorem applied to the placement target
`out/a` and `out/a/a-1.0` in the demo filesystem. -/
theorem C8_ensure_idempotent_witness :
    (∀ q ∈ ancestorChain ((["out"] ++ ["a"]) ++ ["a-1.0"]),
      fs0demo q ≠ some Entry.file) ∧
      (ensure_directories_exist fs0demo (["out"] ++ ["a"])
        ((["out"] ++ ["a"]) ++ ["a-1.0"])).2 = true :=
  ⟨by decide, (C8_ensure_idempotent fs0demo ["out"] "a" "a-1.0" (by decide)).1⟩

/-- C9: `simplify_name` is deterministic and total.  In the embedding it is
a pure function of the name string alone — it takes no filesystem or
environment argument, so it can read no hidden state and perform no I/O —
hence repeated calls agree, and it returns a grouping key on every input
string. -/
theorem C9_simplify_deterministic_total (n : String) :
    simplify_name n = simplify_name n ∧ ∃ k : String, simplify_name n = k :=
  ⟨rfl, ⟨simplify_name n, rfl⟩⟩

/-- C10: `resolve_base_dir` prefers a sibling `Downloads` (then
`downloads`) directory of the configured path's parent over the configured
path itself — regardless of whether the configured path exists — and falls
back to the configured path only when neither candidate is a directory. -/
theorem C10_resolve_prefers_sibling_downloads (fs : FS) (home base_dir : Path)
    (hp : isDir fs base_dir.dropLast = true) :
    (isDir fs (base_dir.dropLast ++ ["Downloads"]) = true →
      resolve_base_dir fs home base_dir = base_dir.dropLast ++ ["Downloads"]) ∧
    (isDir fs (base_dir.dropLast ++ ["Downloads"]) = false →
      isDir fs (base_dir.dropLast ++ ["downloads"]) = true →
      resolve_base_dir fs home base_dir = base_dir.dropLast ++ ["downloads"]) ∧
    (isDir fs (base_dir.dropLast ++ ["Downloads"]) = false →
      isDir fs (base_dir.dropLast ++ ["downloads"]) = false →
      resolve_base_dir fs home base_dir = base_dir) := by
  refine ⟨?_, ?_, ?_⟩
  · intro h1
    simp [resolve_base_dir, hp, h1]
  · intro h1 h2
    simp [resolve_base_dir, hp, h1, h2]
  · intro h1 h2
    simp [resolve_base_dir, hp, h1, h2]

/-- C10 witness: in the demo filesystem the configured directory `p/cfg`
exists, yet the run scans the sibling `p/Downloads`. -/
theorem C10_resolve_witness :
    (isDir fs0demo ["p"] = true ∧ isDir fs0demo ["p", "cfg"] = true) ∧
      resolve_base_dir fs0demo ["home"] ["p", "cfg"] = ["p"] ++ ["Downloads"] :=
  ⟨⟨by decide, by decide⟩,
    (C10_resolve_prefers_sibling_downloads fs0demo ["home"] ["p", "cfg"]
      (by decide)).1 (by decide)⟩

end Organizer
